import Mathlib

/-!
Verification development for the CliHelper menu engine (clihelper.py).

The embedding models the two core pieces of the program:

* `request_input` — the input-validation loop.  Standard input is modelled as
  an explicit list of lines; the function consumes lines and returns the pair
  `(value, accepted)` of the source, together with the remaining stream and a
  transcript of the messages printed along the way.  `none` means the loop did
  not produce a result within the supplied input (it would keep prompting).
  The loop is driven by fuel that counts loop iterations; the public wrapper
  passes `stream.length`, which is always sufficient because every iteration
  consumes at least one line (proved below as fuel irrelevance).
* `OptionNode` / `enterLoop` — the option tree and the traversal loop
  `_enter_next_level`, with explicit fuel bounding the number of loop
  iterations (the Python loop has no bound; fuel exhaustion is reported as the
  distinct outcome `timeout`).  The traversal emits a trace of draw / prompt /
  exec events.  The `ValueError` raised by `max([])` when a menu with no
  children is drawn is modelled by the `crash` outcome.  A second error path
  of the source is NOT represented: validators are total Boolean functions
  here, while the choice validator of `_request_option` (line 194) evaluates
  `int(x)` after `x.isdigit()`, and Python `str.isdigit` also accepts
  Numeric_Type=Digit characters such as "\u00b2" on which `int` raises
  `ValueError`; on such input the source crashes where this model merely
  rejects the line.

Machine integers do not occur in the source; titles and inputs are strings.
Python `str.isdigit`, `str.lower` and `str.endswith` are modelled over the
character lists of the strings (ASCII case folding for `lower`).
-/

/-- Keyword options of `request_input` (clihelper.py lines 20–29). -/
structure ReqOpts where
  has_default_val : Bool
  default_val : String
  has_quit_val : Bool
  quit_val : String
  check_func : Option (String → Bool)
  ask_again : Bool
  need_confirm : Bool

/-- Result of one `request_input` call: the returned pair `(value, accepted)`,
the part of stdin not yet consumed, and the transcript of printed messages. -/
structure ReqOut where
  value : String
  accepted : Bool
  rest : List String
  out : List String
  deriving DecidableEq, Repr

/-- The submitted value of an iteration: `input() or default_val` when the
request has a default value (line 49), otherwise the raw line (line 51). -/
def inputVal (o : ReqOpts) (line : String) : String :=
  if o.has_default_val && line == "" then o.default_val else line

/-- The prompt text printed at the top of each iteration (lines 45–51):
`prompt_msg` followed by either the default-value tag or a bare colon. -/
def promptEntry (o : ReqOpts) (prompt : String) : String :=
  prompt ++ (if o.has_default_val then " (Default [" ++ o.default_val ++ "]): " else ": ")

/-- `request_input` specialised to `need_confirm = false` (the confirmation
field of `o` is ignored).  Faithful to clihelper.py lines 44–79 with the
confirmation block skipped; the full function below delegates its nested
confirmation call to this one (that call passes `need_confirm=False`). -/
def request_input_nc (o : ReqOpts) (prompt err : String) : List String → Option ReqOut
  | [] => none
  | line :: rest =>
    let v := inputVal o line
    if o.has_quit_val && v == o.quit_val then
      some ⟨"", false, rest, [promptEntry o prompt, "Quit."]⟩
    else
      match o.check_func with
      | some f =>
        if f v then some ⟨v, true, rest, [promptEntry o prompt]⟩
        else if o.ask_again then
          match request_input_nc o prompt err rest with
          | none => none
          | some r => some ⟨r.value, r.accepted, r.rest,
              promptEntry o prompt :: err :: "Please enter again." :: r.out⟩
        else some ⟨"", false, rest, [promptEntry o prompt, err]⟩
      | none => some ⟨v, true, rest, [promptEntry o prompt]⟩

/-- Python `str.lower`, modelled character-wise (ASCII case folding). -/
def strLower (s : String) : String :=
  ⟨s.data.map Char.toLower⟩

/-- The fixed validator of the nested confirmation prompt
(clihelper.py line 63): case-insensitive membership in y/yes/n/no. -/
def confirmCheck (x : String) : Bool :=
  strLower x == "y" || strLower x == "yes" || strLower x == "n" || strLower x == "no"

/-- The options of the nested confirmation call (lines 59–64): no default, no
quit value, retry on invalid, no further confirmation, fixed validator. -/
def confirmOpts : ReqOpts :=
  ⟨false, "", false, "q", some confirmCheck, true, false⟩

/-- Prompt message of the nested confirmation call (line 60). -/
def confirmPrompt (v : String) : String :=
  "Do you confirm the value [" ++ v ++ "] (yes/no)"

/-- One unfolding layer of `request_input` (clihelper.py lines 44–79), driven
by iteration fuel.  The nested confirmation call is `request_input_nc` with
`confirmOpts` (the source passes `need_confirm=False` there); a lowercase
n/no answer jumps back to the top of the loop (`continue`, line 67). -/
def request_input_go (o : ReqOpts) (prompt err : String) : Nat → List String → Option ReqOut
  | _, [] => none
  | 0, _ :: _ => none
  | fuel + 1, line :: rest =>
    let v := inputVal o line
    if o.has_quit_val && v == o.quit_val then
      some ⟨"", false, rest, [promptEntry o prompt, "Quit."]⟩
    else if o.need_confirm then
      match request_input_nc confirmOpts (confirmPrompt v) "Invalid value." rest with
      | none => none
      | some c =>
        if c.value == "n" || c.value == "no" then
          match request_input_go o prompt err fuel c.rest with
          | none => none
          | some r => some ⟨r.value, r.accepted, r.rest,
              promptEntry o prompt :: (c.out ++ r.out)⟩
        else
          match o.check_func with
          | some f =>
            if f v then some ⟨v, true, c.rest, promptEntry o prompt :: c.out⟩
            else if o.ask_again then
              match request_input_go o prompt err fuel c.rest with
              | none => none
              | some r => some ⟨r.value, r.accepted, r.rest,
                  promptEntry o prompt :: (c.out ++ err :: "Please enter again." :: r.out)⟩
            else some ⟨"", false, c.rest, promptEntry o prompt :: (c.out ++ [err])⟩
          | none => some ⟨v, true, c.rest, promptEntry o prompt :: c.out⟩
    else
      match o.check_func with
      | some f =>
        if f v then some ⟨v, true, rest, [promptEntry o prompt]⟩
        else if o.ask_again then
          match request_input_go o prompt err fuel rest with
          | none => none
          | some r => some ⟨r.value, r.accepted, r.rest,
              promptEntry o prompt :: err :: "Please enter again." :: r.out⟩
        else some ⟨"", false, rest, [promptEntry o prompt, err]⟩
      | none => some ⟨v, true, rest, [promptEntry o prompt]⟩

/-- The input-validation loop `request_input` of clihelper.py (lines 44–79),
over an explicit list of stdin lines.  `none` means the loop ran out of
modelled input.  Fuel `stream.length` is always sufficient because every
iteration consumes at least one line. -/
def request_input (o : ReqOpts) (prompt err : String) (stream : List String) :
    Option ReqOut :=
  request_input_go o prompt err stream.length stream

/-- Menu layout configuration (clihelper.py lines 82–91). -/
structure MenuConfig where
  left_padding : Nat
  right_padding : Nat
  top_padding : Nat
  bottom_padding : Nat
  edge_char : String
  wall_char : String
  serial_marker : String
  draw_menu_again : Bool
  deriving DecidableEq, Repr

/-- `DEFAULT_MENU_CONFIG` (clihelper.py lines 93–102). -/
def DEFAULT_MENU_CONFIG : MenuConfig :=
  ⟨2, 10, 1, 1, "#", " ", ". ", false⟩

/-- Python string repetition `s * n`. -/
def strRepeat (s : String) (n : Nat) : String :=
  ⟨(List.replicate n s.data).flatten⟩

/-- Python format `{x:>{w}}`: right-align by padding with spaces on the left
(no truncation when `x` is longer than `w`). -/
def padLeft (s : String) (w : Nat) : String :=
  strRepeat " " (w - s.length) ++ s

/-- Python format `{x:<{w}}`: left-align by padding with spaces on the right. -/
def padRight (s : String) (w : Nat) : String :=
  s ++ strRepeat " " (w - s.length)

/-- `_draw_menu` (clihelper.py lines 151–183) as the list of printed lines.
`none` models the `ValueError` of `max([])` in
`_get_max_length_of_option_titles` (line 149) when there are no children. -/
def draw_menu (cfg : MenuConfig) (titles : List String) : Option (List String) :=
  if titles.isEmpty then none
  else
    let max_len_option := titles.foldl (fun m t => max m t.length) 0
    let max_len_serial := (toString titles.length).length
    let option_width := max_len_serial + cfg.serial_marker.length + max_len_option
    let menu_width := cfg.left_padding + option_width + cfg.right_padding
    let top_bottom_edge := strRepeat cfg.edge_char (menu_width + cfg.edge_char.length * 2)
    let top_bottom_wall := cfg.edge_char ++ strRepeat cfg.wall_char menu_width ++ cfg.edge_char
    let left_wall := cfg.edge_char ++ strRepeat cfg.wall_char cfg.left_padding
    let right_wall := strRepeat cfg.wall_char cfg.right_padding ++ cfg.edge_char
    some ([top_bottom_edge]
      ++ List.replicate cfg.top_padding top_bottom_wall
      ++ (titles.mapIdx fun i t =>
            left_wall ++ padLeft (toString (i + 1)) max_len_serial ++ cfg.serial_marker
              ++ padRight t max_len_option ++ right_wall)
      ++ List.replicate cfg.bottom_padding top_bottom_wall
      ++ [top_bottom_edge])

/-- Modelled from the spec: the MenuRenderer contract of §4.2, items 1–4, for
single-character edge and fill strings: one top border line spanning
`interiorWidth + 2`, `topPadding` blank interior lines, one line per title
(right-aligned serial, marker, left-aligned title), `bottomPadding` blank
interior lines, and the bottom border line. -/
def draw_menu_spec (cfg : MenuConfig) (titles : List String) : List String :=
  let maxTitleWidth := titles.foldl (fun m t => max m t.length) 0
  let maxSerialWidth := (toString titles.length).length
  let contentWidth := maxSerialWidth + cfg.serial_marker.length + maxTitleWidth
  let interiorWidth := cfg.left_padding + contentWidth + cfg.right_padding
  let border := strRepeat cfg.edge_char (interiorWidth + 2)
  let blank := cfg.edge_char ++ strRepeat cfg.wall_char interiorWidth ++ cfg.edge_char
  [border]
    ++ List.replicate cfg.top_padding blank
    ++ (titles.mapIdx fun i t =>
          cfg.edge_char ++ strRepeat cfg.wall_char cfg.left_padding
            ++ padLeft (toString (i + 1)) maxSerialWidth ++ cfg.serial_marker
            ++ padRight t maxTitleWidth
            ++ (strRepeat cfg.wall_char cfg.right_padding ++ cfg.edge_char))
    ++ List.replicate cfg.bottom_padding blank
    ++ [border]

/-- What the `exec_func` of a node is bound to.  `user` covers host-supplied
functions and `_default_func`, both of which return `None`; the other three
are actions of the engine itself (`_return_previous_level`, `_quiting_level`,
`_enter_next_level`). -/
inductive ActKind where
  | user
  | ret
  | quit
  | enter
  deriving DecidableEq, Repr

/-- `_OptionNode` (clihelper.py line 105): a title, the bound action, and the
ordered children.  The layout configuration is shared by the whole tree and is
passed to the traversal separately. -/
inductive OptionNode where
  | mk (title : String) (kind : ActKind) (children : List OptionNode)

/-- Title of a node. -/
def OptionNode.title : OptionNode → String
  | .mk t _ _ => t

/-- Bound-action kind of a node. -/
def OptionNode.kind : OptionNode → ActKind
  | .mk _ k _ => k

/-- Children of a node. -/
def OptionNode.children : OptionNode → List OptionNode
  | .mk _ _ cs => cs

/-- `_RETURN_CODE` (clihelper.py line 109). -/
def RETURN_CODE : Nat := 0xbabe

/-- `_ENTER_CODE` (clihelper.py line 111). -/
def ENTER_CODE : Nat := 0xbeef

/-- `_QUIT_CODE` (clihelper.py line 113). -/
def QUIT_CODE : Nat := 0xcafe

/-- Python `str.isdigit` restricted to ASCII decimal digits: nonempty and
all characters in 0-9.  The real `str.isdigit` also returns `True` for
Numeric_Type=Digit characters such as "\u00b2" (superscript two), on which
`int` raises `ValueError`; this total model classifies those strings as
non-digits instead, so the uncaught `ValueError` the source validator at
line 194 raises on them has no counterpart in the model. -/
def strIsDigit (s : String) : Bool :=
  !s.data.isEmpty && s.data.all Char.isDigit

/-- Python `int` on a decimal digit string. -/
def strToNat (s : String) : Nat :=
  s.data.foldl (fun n c => n * 10 + (c.toNat - 48)) 0

/-- The validator of `_request_option` (clihelper.py line 194):
`x.isdigit() and 1 <= int(x) <= len(self.children)`. -/
def choiceCheck (n : Nat) (x : String) : Bool :=
  strIsDigit x && (decide (1 ≤ strToNat x) && decide (strToNat x ≤ n))

/-- The options `_request_option` passes to `request_input`
(clihelper.py lines 191–196). -/
def choiceOpts (n : Nat) : ReqOpts :=
  ⟨false, "", false, "q", some (choiceCheck n), false, false⟩

/-- Result of `_request_option`: out of modelled input, an uncaught
`IndexError` (never reached, see the C10 theorem), or the chosen node
(`none` standing for the Python `None` on a non-accepted request). -/
inductive ChoiceRes where
  | outOfInput
  | crash
  | got (choice : Option OptionNode) (rest : List String)

/-- `_request_option` (clihelper.py lines 185–200). -/
def request_option (children : List OptionNode) (stream : List String) : ChoiceRes :=
  match request_input (choiceOpts children.length) "\nYour option" "No such option." stream with
  | none => ChoiceRes.outOfInput
  | some r =>
    if r.accepted then
      match children[strToNat r.value - 1]? with
      | some c => ChoiceRes.got (some c) r.rest
      | none => ChoiceRes.crash
    else ChoiceRes.got none r.rest

/-- Observable events of the traversal loop: a menu drawing (with the titles
listed), a choice request, and the execution of a host-supplied leaf action. -/
inductive Ev where
  | draw (titles : List String)
  | prompt
  | exec (title : String)
  deriving DecidableEq, Repr

/-- Outcome of the traversal loop: the returned status code plus remaining
input, an uncaught exception, exhausted modelled input, or exhausted fuel. -/
inductive LoopOut where
  | ok (code : Nat) (rest : List String)
  | crash
  | outOfInput
  | timeout
  deriving DecidableEq, Repr

/-- Titles of a list of child nodes. -/
def titlesOf (children : List OptionNode) : List String :=
  children.map OptionNode.title

/-- The `while` loop of `_enter_next_level` (clihelper.py lines 202–234),
parameterised by the current `state` value (`none` is the Python `None`).
Per iteration: exit when the state is the RETURN or QUIT code (returning
ENTER resp. QUIT, lines 230–234); otherwise redraw when configured or when
the state is the ENTER code (line 218, crashing on an empty children list),
reset the state to `None` (line 223), request a choice, and either loop on a
failed request or run the action of the chosen child (line 228), whose result
becomes the new state. -/
def enterLoop (cfg : MenuConfig) : Nat → List OptionNode → Option Nat → List String →
    List Ev × LoopOut
  | fuel, ch, state, stream =>
    if state == some RETURN_CODE then ([], LoopOut.ok ENTER_CODE stream)
    else if state == some QUIT_CODE then ([], LoopOut.ok QUIT_CODE stream)
    else
      match fuel with
      | 0 => ([], LoopOut.timeout)
      | fuel + 1 =>
        let doDraw := cfg.draw_menu_again || state == some ENTER_CODE
        if doDraw && ch.isEmpty then ([], LoopOut.crash)
        else
          let tr0 : List Ev := if doDraw then [Ev.draw (titlesOf ch)] else []
          match request_option ch stream with
          | ChoiceRes.outOfInput => (tr0 ++ [Ev.prompt], LoopOut.outOfInput)
          | ChoiceRes.crash => (tr0 ++ [Ev.prompt], LoopOut.crash)
          | ChoiceRes.got none rest =>
            let r := enterLoop cfg fuel ch none rest
            (tr0 ++ Ev.prompt :: r.fst, r.snd)
          | ChoiceRes.got (some child) rest =>
            match child.kind with
            | ActKind.user =>
              let r := enterLoop cfg fuel ch none rest
              (tr0 ++ Ev.prompt :: Ev.exec child.title :: r.fst, r.snd)
            | ActKind.ret =>
              let r := enterLoop cfg fuel ch (some RETURN_CODE) rest
              (tr0 ++ Ev.prompt :: r.fst, r.snd)
            | ActKind.quit =>
              let r := enterLoop cfg fuel ch (some QUIT_CODE) rest
              (tr0 ++ Ev.prompt :: r.fst, r.snd)
            | ActKind.enter =>
              match enterLoop cfg fuel child.children (some ENTER_CODE) rest with
              | (trc, LoopOut.ok code rest2) =>
                let r := enterLoop cfg fuel ch (some code) rest2
                (tr0 ++ Ev.prompt :: (trc ++ r.fst), r.snd)
              | (trc, e) => (tr0 ++ Ev.prompt :: trc, e)

/-- `_enter_next_level` (clihelper.py lines 202–234): the loop above started
with `state = self._ENTER_CODE` (line 208). -/
def enter_next_level (cfg : MenuConfig) (fuel : Nat) (children : List OptionNode)
    (stream : List String) : List Ev × LoopOut :=
  enterLoop cfg fuel children (some ENTER_CODE) stream

/-- Outcome of `start_loop`. -/
inductive RunOut where
  | finished (rest : List String)
  | misuse
  | crash
  | outOfInput
  | timeout
  deriving DecidableEq, Repr

/-- `start_loop` (clihelper.py lines 294–300): on the root, run
`_enter_next_level` once; on a non-root node, only report the misuse. -/
def start_loop (is_root : Bool) (cfg : MenuConfig) (children : List OptionNode)
    (fuel : Nat) (stream : List String) : List Ev × RunOut :=
  if is_root then
    match enter_next_level cfg fuel children stream with
    | (tr, LoopOut.ok _ rest) => (tr, RunOut.finished rest)
    | (tr, LoopOut.crash) => (tr, RunOut.crash)
    | (tr, LoopOut.outOfInput) => (tr, RunOut.outOfInput)
    | (tr, LoopOut.timeout) => (tr, RunOut.timeout)
  else ([], RunOut.misuse)

/-- Python `str.endswith`, over the character lists. -/
def strEndsWith (s suffix : String) : Bool :=
  suffix.data.isSuffixOf s.data

/-- The submenu-marker relabelling of `add_option`
(clihelper.py lines 268–269). -/
def markTitle (t : String) : String :=
  if strEndsWith t " [d]" then t else t ++ " [d]"

/-- `add_option` (clihelper.py lines 252–276) as the resulting parent node:
the title gains the `" [d]"` marker if not already present, the new child
(with no children of its own) is appended, and the action of the parent becomes
`_enter_next_level`. -/
def add_option (parent : OptionNode) (childTitle : String) (childKind : ActKind) :
    OptionNode :=
  OptionNode.mk (markTitle parent.title) ActKind.enter
    (parent.children ++ [OptionNode.mk childTitle childKind []])

/-- `add_return_option` (clihelper.py lines 278–284). -/
def add_return_option (parent : OptionNode) : OptionNode :=
  add_option parent "[Back]" ActKind.ret

/-- `add_exit_option` (clihelper.py lines 286–292). -/
def add_exit_option (parent : OptionNode) : OptionNode :=
  add_option parent "[Exit]" ActKind.quit

/-- A linear chain of submenus of the given depth whose innermost entry is a
QUIT leaf: `chainQ 0` is the `[Exit]` leaf, `chainQ (d+1)` a submenu whose
only option is `chainQ d`. -/
def chainQ : Nat → OptionNode
  | 0 => OptionNode.mk "[Exit]" ActKind.quit []
  | d + 1 => OptionNode.mk "Sub [d]" ActKind.enter [chainQ d]

/-! ## Basic lemmas about the input-request loop -/

theorem request_input_nc_consumes (o : ReqOpts) (prompt err : String) :
    ∀ ls r, request_input_nc o prompt err ls = some r → r.rest.length < ls.length := by
  intro ls
  induction ls with
  | nil => intro r h; simp [request_input_nc] at h
  | cons line rest ih =>
    intro r h
    simp only [request_input_nc] at h
    split at h
    · cases h
      simp
    · split at h
      · split at h
        · cases h
          simp
        · split at h
          · split at h
            · exact absurd h (by simp)
            · rename_i r' hr'
              cases h
              simpa using Nat.lt_trans (ih r' hr') (Nat.lt_succ_self _)
          · cases h
            simp
      · cases h
        simp

theorem request_input_go_irrel (o : ReqOpts) (p e : String) :
    ∀ f g ls, ls.length ≤ f → ls.length ≤ g →
      request_input_go o p e f ls = request_input_go o p e g ls := by
  intro f
  induction f with
  | zero =>
    intro g ls hf _
    have hnil : ls = [] := List.eq_nil_of_length_eq_zero (Nat.le_zero.mp hf)
    subst hnil
    cases g <;> simp [request_input_go]
  | succ f ih =>
    intro g ls hf hg
    match ls with
    | [] => cases g <;> simp [request_input_go]
    | line :: rest =>
      match g with
      | 0 => simp at hg
      | g + 1 =>
        have hrf : rest.length ≤ f := by simpa using hf
        have hrg : rest.length ≤ g := by simpa using hg
        simp only [request_input_go]
        by_cases hq : (o.has_quit_val && inputVal o line == o.quit_val) = true
        · simp [hq]
        · simp only [Bool.not_eq_true] at hq
          simp only [hq, Bool.false_eq_true, if_false]
          by_cases hcf : o.need_confirm = true
          · simp only [hcf, if_true]
            cases hnc : request_input_nc confirmOpts (confirmPrompt (inputVal o line))
                "Invalid value." rest with
            | none => rfl
            | some c =>
              have hcr : c.rest.length ≤ rest.length :=
                Nat.le_of_lt (request_input_nc_consumes _ _ _ _ _ hnc)
              have heq : request_input_go o p e f c.rest = request_input_go o p e g c.rest :=
                ih g c.rest (le_trans hcr hrf) (le_trans hcr hrg)
              by_cases hd : (c.value == "n" || c.value == "no") = true
              · simp [hd, heq]
              · simp only [Bool.not_eq_true] at hd
                cases hchk : o.check_func with
                | none => simp [hd]
                | some chk =>
                  by_cases hv : chk (inputVal o line) = true
                  · simp [hd, hv]
                  · simp only [Bool.not_eq_true] at hv
                    by_cases ha : o.ask_again = true
                    · simp [hd, hv, ha, heq]
                    · simp only [Bool.not_eq_true] at ha
                      simp [hd, hv, ha]
          · simp only [Bool.not_eq_true] at hcf
            simp only [hcf, Bool.false_eq_true, if_false]
            have heq : request_input_go o p e f rest = request_input_go o p e g rest :=
              ih g rest hrf hrg
            cases hchk : o.check_func with
            | none => rfl
            | some chk =>
              by_cases hv : chk (inputVal o line) = true
              · simp [hv]
              · simp only [Bool.not_eq_true] at hv
                by_cases ha : o.ask_again = true
                · simp [hv, ha, heq]
                · simp only [Bool.not_eq_true] at ha
                  simp [hv, ha]

theorem request_input_go_spec (o : ReqOpts) (p e : String) (f : Nat) (ls : List String)
    (h : ls.length ≤ f) : request_input_go o p e f ls = request_input o p e ls :=
  request_input_go_irrel o p e f ls.length ls h (le_refl _)

theorem request_input_eq_nc (o : ReqOpts) (p e : String) (h : o.need_confirm = false) :
    ∀ ls, request_input o p e ls = request_input_nc o p e ls := by
  intro ls
  induction ls with
  | nil => simp [request_input, request_input_go, request_input_nc]
  | cons line rest ih =>
    simp only [request_input, List.length_cons] at ih ⊢
    simp only [request_input_go, request_input_nc, h, Bool.false_eq_true, if_false]
    by_cases hq : (o.has_quit_val && inputVal o line == o.quit_val) = true
    · simp [hq]
    · simp only [Bool.not_eq_true] at hq
      simp only [hq, Bool.false_eq_true, if_false]
      cases hchk : o.check_func with
      | none => rfl
      | some chk =>
        by_cases hv : chk (inputVal o line) = true
        · simp [hv]
        · simp only [Bool.not_eq_true] at hv
          by_cases ha : o.ask_again = true
          · simp [hv, ha, ih]
          · simp only [Bool.not_eq_true] at ha
            simp [hv, ha]

theorem nc_confirm_pass (prompt err ans : String) (rest : List String)
    (h : confirmCheck ans = true) :
    request_input_nc confirmOpts prompt err (ans :: rest)
      = some ⟨ans, true, rest, [promptEntry confirmOpts prompt]⟩ := by
  simp [request_input_nc, confirmOpts, inputVal, h]

theorem request_input_nc_accepted_check (o : ReqOpts) (p e : String) (f : String → Bool)
    (hf : o.check_func = some f) :
    ∀ ls r, request_input_nc o p e ls = some r → r.accepted = true → f r.value = true := by
  intro ls
  induction ls with
  | nil => intro r h; simp [request_input_nc] at h
  | cons line rest ih =>
    intro r h hacc
    simp only [request_input_nc, hf] at h
    by_cases hq : (o.has_quit_val && inputVal o line == o.quit_val) = true
    · rw [if_pos hq] at h
      cases h
      simp at hacc
    · simp only [Bool.not_eq_true] at hq
      simp only [hq, Bool.false_eq_true, if_false] at h
      by_cases hv : f (inputVal o line) = true
      · rw [if_pos hv] at h
        cases h
        exact hv
      · simp only [Bool.not_eq_true] at hv
        simp only [hv, Bool.false_eq_true, if_false] at h
        by_cases ha : o.ask_again = true
        · simp only [ha, if_true] at h
          cases hrec : request_input_nc o p e rest with
          | none => rw [hrec] at h; cases h
          | some r' =>
            rw [hrec] at h
            cases h
            simpa using ih r' hrec (by simpa using hacc)
        · simp only [Bool.not_eq_true] at ha
          simp only [ha, Bool.false_eq_true, if_false] at h
          cases h
          simp at hacc

/-! ## Claims about request_input -/

/-- C3 (counterexample): the quit check is NOT performed on the raw input line
before default substitution.  With `has_default_val = true`, `default_val =
"x"` and `quit_val = ""`, the raw empty line equals the quit value, yet the
request is accepted with value `"x"`: the default value is substituted first
and only then compared with the quit value. -/
theorem C3_quit_check_counterexample :
    request_input ⟨true, "x", true, "", none, true, false⟩ "p" "e" [""]
      = some ⟨"x", true, [], ["p (Default [x]): "]⟩ := by
  decide

/-- C3 (amended): the quit check compares the post-default-substitution value
with the quit value: whenever that value equals `quit_val` (in particular
whenever the raw line equals a nonempty `quit_val`, regardless of all other
options), `request_input` immediately returns `("", false)` after printing
`Quit.`, with no confirmation and no validation. -/
theorem C3_quit_check_amended :
    (∀ (o : ReqOpts) (p e line : String) (rest : List String),
      o.has_quit_val = true → inputVal o line = o.quit_val →
      request_input o p e (line :: rest)
        = some ⟨"", false, rest, [promptEntry o p, "Quit."]⟩)
    ∧ ∀ (o : ReqOpts) (p e line : String) (rest : List String),
        o.has_quit_val = true → line = o.quit_val → o.quit_val ≠ "" →
        request_input o p e (line :: rest)
          = some ⟨"", false, rest, [promptEntry o p, "Quit."]⟩ := by
  have main : ∀ (o : ReqOpts) (p e line : String) (rest : List String),
      o.has_quit_val = true → inputVal o line = o.quit_val →
      request_input o p e (line :: rest)
        = some ⟨"", false, rest, [promptEntry o p, "Quit."]⟩ := by
    intro o p e line rest h1 h2
    simp only [request_input, List.length_cons, request_input_go]
    simp [h1, h2]
  refine ⟨main, fun o p e line rest h1 h2 h3 => main o p e line rest h1 ?_⟩
  subst h2
  simp [inputVal, h3]

theorem C3_quit_check_amended_witness :
    request_input ⟨false, "", true, "q", none, true, false⟩ "p" "e" ["q", "z"]
      = some ⟨"", false, ["z"], ["p: ", "Quit."]⟩ :=
  C3_quit_check_amended.2 ⟨false, "", true, "q", none, true, false⟩ "p" "e" "q" ["z"]
    rfl rfl (by decide)

/-- C7: with `has_default_val = true`, an empty input line is replaced by the
default value and then treated exactly like a submitted line carrying that
value (so it still passes through the quit check, confirmation and
validation); concretely, with default `"4"` and a validator accepting `"4"`,
an empty line yields the accepted result `("4", true)`. -/
theorem C7_default_substitution :
    (∀ (o : ReqOpts) (p e : String) (rest : List String), o.has_default_val = true →
      request_input o p e ("" :: rest) = request_input o p e (o.default_val :: rest))
    ∧ request_input ⟨true, "4", true, "q", some (fun x => x == "4"), true, false⟩ "p" "e" [""]
        = some ⟨"4", true, [], ["p (Default [4]): "]⟩ := by
  constructor
  · intro o p e rest h
    have h1 : inputVal o "" = o.default_val := by simp [inputVal, h]
    have h2 : inputVal o o.default_val = o.default_val := by simp [inputVal]
    simp only [request_input, List.length_cons, request_input_go, h1, h2]
  · decide

theorem C7_default_substitution_witness :
    request_input ⟨true, "4", true, "q", none, true, false⟩ "p" "e" ["", "z"]
      = request_input ⟨true, "4", true, "q", none, true, false⟩ "p" "e" ["4", "z"] :=
  C7_default_substitution.1 ⟨true, "4", true, "q", none, true, false⟩ "p" "e" ["z"] rfl

/-- C8: with a validator present and a candidate value failing it (quit check
not triggered, no confirmation), `request_input` prints the error message and:
with `ask_again = true` it loops, re-prompting on the remaining input; with
`ask_again = false` it returns `("", false)` having printed the error exactly
once.  Every outcome is a `(value, accepted)` pair (the model is a total
function into `Option ReqOut`; the source has no exception path). -/
theorem C8_validation_failure :
    ∀ (o : ReqOpts) (p e : String) (f : String → Bool) (line : String) (rest : List String),
      o.need_confirm = false → o.check_func = some f →
      (o.has_quit_val && (inputVal o line == o.quit_val)) = false →
      f (inputVal o line) = false →
      ((o.ask_again = true →
        request_input o p e (line :: rest)
          = (request_input o p e rest).map fun r =>
              ⟨r.value, r.accepted, r.rest, promptEntry o p :: e :: "Please enter again." :: r.out⟩)
      ∧ (o.ask_again = false →
        request_input o p e (line :: rest) = some ⟨"", false, rest, [promptEntry o p, e]⟩)) := by
  intro o p e f line rest hnc hchk hq hv
  constructor
  · intro ha
    simp only [request_input, List.length_cons, request_input_go, hnc, hchk, hq, hv, ha,
      Bool.false_eq_true, if_false, if_true]
    cases request_input_go o p e rest.length rest <;> simp
  · intro ha
    simp only [request_input, List.length_cons, request_input_go, hnc, hchk, hq, hv, ha,
      Bool.false_eq_true, if_false]

theorem C8_validation_failure_witness :
    request_input ⟨false, "", false, "q", some (fun x => x == "ok"), false, false⟩
        "p" "e" ["bad", "z"]
      = some ⟨"", false, ["z"], ["p: ", "e"]⟩ :=
  (C8_validation_failure ⟨false, "", false, "q", some (fun x => x == "ok"), false, false⟩
    "p" "e" (fun x => x == "ok") "bad" ["z"] rfl rfl (by decide) (by decide)).2 rfl

/-- C2 (counterexample): a confirmation answer of `"No"` (capital N) passes
the case-insensitive validator, but the discard test of the source
(`result in ("n", "no")`, line 66) is case-sensitive, so the candidate is NOT
discarded: the outer request is not restarted and the candidate `"5"` is
returned accepted. -/
theorem C2_confirmation_counterexample :
    request_input ⟨false, "", false, "q", none, true, true⟩ "p" "e" ["5", "No"]
      = some ⟨"5", true, [], ["p: ", "Do you confirm the value [5] (yes/no): "]⟩ := by
  decide

/-- C2 (amended): the nested confirmation prompt indeed has no default, no
quit sentinel, no further confirmation, retry-on-invalid, and the validator
accepting exactly the case-insensitive answers y/yes/n/no; but only the two
exact lowercase answers `"n"` and `"no"` discard the candidate and restart
the outer request from the top — every other passing answer (including
`"N"`, `"No"`, `"NO"`) proceeds to validation of the candidate. -/
theorem C2_confirmation_amended :
    (confirmOpts.has_default_val = false ∧ confirmOpts.has_quit_val = false
      ∧ confirmOpts.need_confirm = false ∧ confirmOpts.ask_again = true
      ∧ confirmOpts.check_func = some confirmCheck
      ∧ ∀ x, confirmCheck x = true ↔ strLower x ∈ (["y", "yes", "n", "no"] : List String))
    ∧ ∀ (o : ReqOpts) (p e line ans : String) (rest : List String),
        o.need_confirm = true →
        (o.has_quit_val && (inputVal o line == o.quit_val)) = false →
        confirmCheck ans = true →
        ((ans = "n" ∨ ans = "no") →
          request_input o p e (line :: ans :: rest)
            = (request_input o p e rest).map fun r =>
                ⟨r.value, r.accepted, r.rest,
                  promptEntry o p
                    :: promptEntry confirmOpts (confirmPrompt (inputVal o line)) :: r.out⟩)
        ∧ (¬(ans = "n" ∨ ans = "no") →
            (o.check_func = none →
              request_input o p e (line :: ans :: rest)
                = some ⟨inputVal o line, true, rest,
                    [promptEntry o p, promptEntry confirmOpts (confirmPrompt (inputVal o line))]⟩)
            ∧ ∀ f, o.check_func = some f →
                (f (inputVal o line) = true →
                  request_input o p e (line :: ans :: rest)
                    = some ⟨inputVal o line, true, rest,
                        [promptEntry o p,
                          promptEntry confirmOpts (confirmPrompt (inputVal o line))]⟩)
                ∧ (f (inputVal o line) = false → o.ask_again = false →
                  request_input o p e (line :: ans :: rest)
                    = some ⟨"", false, rest,
                        [promptEntry o p,
                          promptEntry confirmOpts (confirmPrompt (inputVal o line)), e]⟩)) := by
  constructor
  · refine ⟨rfl, rfl, rfl, rfl, rfl, fun x => ?_⟩
    simp only [confirmCheck, Bool.or_eq_true, beq_iff_eq, List.mem_cons,
      List.mem_singleton, List.not_mem_nil, or_false]
    tauto
  · intro o p e line ans rest hcf hq hans
    have hpass := nc_confirm_pass (confirmPrompt (inputVal o line)) "Invalid value." ans rest hans
    constructor
    · intro hdisc
      have hd : (ans == "n" || ans == "no") = true := by
        rcases hdisc with h | h <;> simp [h]
      simp only [request_input, List.length_cons, request_input_go, hq, hcf,
        Bool.false_eq_true, if_false, if_true, hpass, hd]
      rw [request_input_go_spec o p e (rest.length + 1) rest (Nat.le_succ _)]
      simp only [request_input]
      cases request_input_go o p e rest.length rest <;> simp
    · intro hnd
      have hd : (ans == "n" || ans == "no") = false := by
        push_neg at hnd
        simp [hnd.1, hnd.2]
      constructor
      · intro hchk
        simp only [request_input, List.length_cons, request_input_go, hq, hcf,
          Bool.false_eq_true, if_false, if_true, hpass, hd, hchk]
      · intro f hchk
        constructor
        · intro hfv
          simp only [request_input, List.length_cons, request_input_go, hq, hcf,
            Bool.false_eq_true, if_false, if_true, hpass, hd, hchk, hfv]
        · intro hfv hask
          simp only [request_input, List.length_cons, request_input_go, hq, hcf,
            Bool.false_eq_true, if_false, if_true, hpass, hd, hchk, hfv, hask]
          simp

theorem C2_confirmation_amended_witness :
    request_input ⟨false, "", false, "q", none, true, true⟩ "p" "e" ["5", "no", "7"]
      = (request_input ⟨false, "", false, "q", none, true, true⟩ "p" "e" ["7"]).map fun r =>
          ⟨r.value, r.accepted, r.rest,
            promptEntry ⟨false, "", false, "q", none, true, true⟩ "p"
              :: promptEntry confirmOpts
                  (confirmPrompt (inputVal ⟨false, "", false, "q", none, true, true⟩ "5"))
              :: r.out⟩ :=
  (C2_confirmation_amended.2 ⟨false, "", false, "q", none, true, true⟩ "p" "e" "5" "no" ["7"]
    rfl (by decide) (by decide)).1 (Or.inr rfl)

/-! ## Lemmas about the choice request and the traversal loop -/

theorem choice_accepted (n : Nat) (p e : String) (s : List String) (r : ReqOut)
    (h : request_input (choiceOpts n) p e s = some r) (hacc : r.accepted = true) :
    choiceCheck n r.value = true := by
  rw [request_input_eq_nc _ p e rfl] at h
  exact request_input_nc_accepted_check _ p e _ rfl s r h hacc

theorem choiceCheck_bounds (n : Nat) (x : String) (h : choiceCheck n x = true) :
    strIsDigit x = true ∧ 1 ≤ strToNat x ∧ strToNat x ≤ n := by
  simpa [choiceCheck, Bool.and_eq_true, decide_eq_true_eq] using h

theorem request_option_ne_crash (ch : List OptionNode) (s : List String) :
    request_option ch s ≠ ChoiceRes.crash := by
  simp only [request_option]
  cases hri : request_input (choiceOpts ch.length) "\nYour option" "No such option." s with
  | none => simp
  | some r =>
    by_cases hacc : r.accepted = true
    · have hb := choiceCheck_bounds _ _ (choice_accepted _ _ _ _ _ hri hacc)
      cases hg : ch[strToNat r.value - 1]? with
      | none =>
        have : ¬ ch.length ≤ strToNat r.value - 1 := by omega
        exact absurd hg (by simpa using fun hle => this hle)
      | some c => simp [hacc, hg]
    · simp only [Bool.not_eq_true] at hacc
      simp [hacc]

theorem request_option_single_one (x : OptionNode) (rest : List String) :
    request_option [x] ("1" :: rest) = ChoiceRes.got (some x) rest := by
  have h : request_input (choiceOpts 1) "\nYour option" "No such option." ("1" :: rest)
      = some ⟨"1", true, rest, ["\nYour option: "]⟩ := by
    simp only [request_input, List.length_cons, request_input_go]
    have h1 : choiceCheck 1 "1" = true := by decide
    simp [choiceOpts, inputVal, h1, promptEntry]
  simp only [request_option, List.length_singleton, h]
  have h2 : strToNat "1" - 1 = 0 := by decide
  simp [h2]

/-- C10: whenever the choice request of `_request_option` reports an accepted
result, the accepted string is a digit string whose value lies in
`1..len(children)`, the index `children[int(choice) - 1]` is in bounds, and
`_request_option` returns exactly that child; a non-accepted result yields
`None` and the children list is never indexed — in particular the
`IndexError` branch (modelled as `crash`) is unreachable. -/
theorem C10_request_option_bounds :
    (∀ (ch : List OptionNode) (stream : List String) (r : ReqOut),
      request_input (choiceOpts ch.length) "\nYour option" "No such option." stream = some r →
      (r.accepted = true →
        strIsDigit r.value = true ∧ 1 ≤ strToNat r.value ∧ strToNat r.value ≤ ch.length
        ∧ ∃ c, ch[strToNat r.value - 1]? = some c
            ∧ request_option ch stream = ChoiceRes.got (some c) r.rest)
      ∧ (r.accepted = false → request_option ch stream = ChoiceRes.got none r.rest))
    ∧ ∀ (ch : List OptionNode) (stream : List String),
        request_option ch stream ≠ ChoiceRes.crash := by
  constructor
  · intro ch stream r hri
    constructor
    · intro hacc
      obtain ⟨hdig, hlo, hhi⟩ := choiceCheck_bounds _ _ (choice_accepted _ _ _ _ _ hri hacc)
      have hlt : strToNat r.value - 1 < ch.length := by omega
      cases hg : ch[strToNat r.value - 1]? with
      | none =>
        rw [List.getElem?_eq_getElem hlt] at hg
        cases hg
      | some c =>
        exact ⟨hdig, hlo, hhi, c, rfl, by simp [request_option, hri, hacc, hg]⟩
    · intro hacc
      simp [request_option, hri, hacc]
  · exact request_option_ne_crash

theorem C10_request_option_bounds_witness :
    strIsDigit "1" = true ∧ 1 ≤ strToNat "1"
    ∧ strToNat "1" ≤ [OptionNode.mk "A" ActKind.user []].length
    ∧ ∃ c, [OptionNode.mk "A" ActKind.user []][strToNat "1" - 1]? = some c
        ∧ request_option [OptionNode.mk "A" ActKind.user []] ["1"]
            = ChoiceRes.got (some c) [] :=
  (C10_request_option_bounds.1 [OptionNode.mk "A" ActKind.user []] ["1"]
    ⟨"1", true, [], ["\nYour option: "]⟩ (by decide)).1 rfl

/-! ## Exit behaviour of the traversal loop -/

theorem enterLoop_quit_exit (cfg : MenuConfig) (fuel : Nat) (ch : List OptionNode)
    (stream : List String) :
    enterLoop cfg fuel ch (some QUIT_CODE) stream = ([], LoopOut.ok QUIT_CODE stream) := by
  have h1 : ((some QUIT_CODE : Option Nat) == some RETURN_CODE) = false := by decide
  have h2 : ((some QUIT_CODE : Option Nat) == some QUIT_CODE) = true := by decide
  rw [enterLoop.eq_def]
  simp only [h1, h2, Bool.false_eq_true, if_false, if_true]

theorem enterLoop_return_exit (cfg : MenuConfig) (fuel : Nat) (ch : List OptionNode)
    (stream : List String) :
    enterLoop cfg fuel ch (some RETURN_CODE) stream = ([], LoopOut.ok ENTER_CODE stream) := by
  have h1 : ((some RETURN_CODE : Option Nat) == some RETURN_CODE) = true := by decide
  rw [enterLoop.eq_def]
  simp only [h1, if_true]

/-- C5 (code bug): the claimed crash-freedom is the documented intent of the
error-handling design, but the code crashes on reachable inputs.  Evaluated
here at the first failing input: `start_loop` on the root of a tree with no
children — buildable through the public constructors by constructing the
root and adding no options — draws the menu on entry, and `_draw_menu`
reaches `max([])` on the empty title list (line 149), raising `ValueError`.
A second failing input lies outside this model (see `strIsDigit`): on a
drawn menu, the input line "\u00b2" passes `str.isdigit` and then `int`
raises `ValueError` inside the choice validator at line 194, crashing
`start_loop` even on a root with children. -/
theorem C5_crash_at_failing_input :
    start_loop true DEFAULT_MENU_CONFIG [] 1 [] = ([], RunOut.crash) := by
  decide

/-! ## The submenu marker and the branch-action invariant -/

theorem strEndsWith_append_marker (t : String) :
    strEndsWith (t ++ " [d]") " [d]" = true := by
  simpa [strEndsWith, String.data_append, List.isSuffixOf_iff_suffix]
    using List.suffix_append t.data " [d]".data

theorem add_option_foldl_marked :
    ∀ (adds : List (String × ActKind)) (t : String) (cs : List OptionNode),
      strEndsWith t " [d]" = true →
      ((adds.foldl (fun n a => add_option n a.1 a.2) (OptionNode.mk t ActKind.enter cs)).title = t
      ∧ (adds.foldl (fun n a => add_option n a.1 a.2) (OptionNode.mk t ActKind.enter cs)).kind
          = ActKind.enter
      ∧ (adds.foldl (fun n a => add_option n a.1 a.2)
            (OptionNode.mk t ActKind.enter cs)).children.length = cs.length + adds.length) := by
  intro adds
  induction adds with
  | nil =>
    intro t cs h
    exact ⟨rfl, rfl, by simp [OptionNode.children]⟩
  | cons a rest ih =>
    intro t cs h
    have hmk : add_option (OptionNode.mk t ActKind.enter cs) a.1 a.2
        = OptionNode.mk t ActKind.enter (cs ++ [OptionNode.mk a.1 a.2 []]) := by
      simp [add_option, markTitle, h, OptionNode.title, OptionNode.children]
    simp only [List.foldl_cons, hmk]
    obtain ⟨h1, h2, h3⟩ := ih t (cs ++ [OptionNode.mk a.1 a.2 []]) h
    refine ⟨h1, h2, ?_⟩
    rw [h3]
    simp [List.length_append]
    omega

/-- C6 (counterexample): the `" [d]"` marker is not appended when the
title already ends in `" [d]"` — for a host-chosen title `"A [d]"`, the first
`add_option` appends the marker zero times, not exactly once. -/
theorem C6_marker_counterexample :
    (add_option (OptionNode.mk "A [d]" ActKind.user []) "c" ActKind.user).title = "A [d]"
    ∧ "A [d]" ≠ "A [d]" ++ " [d]" := by
  constructor
  · decide
  · decide

/-- C6 (amended): for every node whose title does not already end in `" [d]"`,
after any nonempty sequence of `add_option` calls the action of the node is the
traversal action of the engine (`enter`, rebinding any host-supplied action), the
`" [d]"` marker has been appended to the title exactly once no matter how many
children were added, and each call appended one child. -/
theorem C6_branch_invariant_amended :
    ∀ (t : String) (k : ActKind) (cs : List OptionNode) (adds : List (String × ActKind)),
      adds ≠ [] → strEndsWith t " [d]" = false →
      ((adds.foldl (fun n a => add_option n a.1 a.2) (OptionNode.mk t k cs)).title
          = t ++ " [d]"
      ∧ (adds.foldl (fun n a => add_option n a.1 a.2) (OptionNode.mk t k cs)).kind
          = ActKind.enter
      ∧ (adds.foldl (fun n a => add_option n a.1 a.2) (OptionNode.mk t k cs)).children.length
          = cs.length + adds.length) := by
  intro t k cs adds hne hmark
  match adds with
  | [] => exact absurd rfl hne
  | a :: rest =>
    have hmk : add_option (OptionNode.mk t k cs) a.1 a.2
        = OptionNode.mk (t ++ " [d]") ActKind.enter (cs ++ [OptionNode.mk a.1 a.2 []]) := by
      simp [add_option, markTitle, hmark, OptionNode.title, OptionNode.children]
    simp only [List.foldl_cons, hmk]
    obtain ⟨h1, h2, h3⟩ :=
      add_option_foldl_marked rest (t ++ " [d]") (cs ++ [OptionNode.mk a.1 a.2 []])
        (strEndsWith_append_marker t)
    refine ⟨h1, h2, ?_⟩
    rw [h3]
    simp [List.length_append]
    omega

theorem C6_branch_invariant_amended_witness :
    ((([("c", ActKind.user), ("d", ActKind.ret)] : List (String × ActKind)).foldl
        (fun n a => add_option n a.1 a.2) (OptionNode.mk "Menu" ActKind.user [])).title
      = "Menu" ++ " [d]")
    ∧ ((([("c", ActKind.user), ("d", ActKind.ret)] : List (String × ActKind)).foldl
        (fun n a => add_option n a.1 a.2) (OptionNode.mk "Menu" ActKind.user [])).kind
      = ActKind.enter)
    ∧ ((([("c", ActKind.user), ("d", ActKind.ret)] : List (String × ActKind)).foldl
        (fun n a => add_option n a.1 a.2)
          (OptionNode.mk "Menu" ActKind.user [])).children.length
      = ([] : List OptionNode).length + ([("c", ActKind.user), ("d", ActKind.ret)]
          : List (String × ActKind)).length) :=
  C6_branch_invariant_amended "Menu" ActKind.user []
    [("c", ActKind.user), ("d", ActKind.ret)] (List.cons_ne_nil _ _) (by decide)

/-! ## The menu renderer -/

theorem strRepeat_length (s : String) (n : Nat) :
    (strRepeat s n).length = n * s.length := by
  show ((List.replicate n s.data).flatten).length = n * s.length
  rw [List.length_flatten, List.map_replicate, List.sum_replicate, smul_eq_mul]
  rfl

set_option maxRecDepth 8192 in
/-- C9 (counterexample): the claim quantifies over every layout
configuration, but for a two-character edge string the top border line does
not span `interiorWidth + 2`: with edge `"##"` and otherwise default layout,
`interiorWidth = 2 + (1 + 2 + 1) + 10 = 16`, yet the emitted border line has
40 characters, not 18 (the source computes `ec * (menu_width + len(ec) * 2)`,
line 173). -/
theorem C9_renderer_counterexample :
    (draw_menu ⟨2, 10, 1, 1, "##", " ", ". ", false⟩ ["A"]).map (fun ls => ls.map String.length)
      = some [40, 20, 20, 20, 40]
    ∧ (40 : Nat) ≠ 16 + 2 := by
  constructor
  · decide
  · decide

/-- C9 (amended): for every nonempty list of titles and every layout whose
edge and fill strings are single characters, `_draw_menu` emits exactly the
lines of the spec-side renderer `draw_menu_spec`: one top border spanning
`interiorWidth + 2`, `topPadding` blank interior lines, one line per title
(right-aligned 1-based serial, marker, left-aligned title, fill padding),
`bottomPadding` blank interior lines and the bottom border; the line count is
`titles.length + topPadding + bottomPadding + 2`, the first line is the
border of length `interiorWidth + 2`, and the blank interior lines also span
`interiorWidth + 2`.  The output is a pure function of titles and
configuration (both renderers are Lean functions). -/
theorem C9_renderer_amended :
    ∀ (cfg : MenuConfig) (titles : List String),
      titles ≠ [] → cfg.edge_char.length = 1 → cfg.wall_char.length = 1 →
      draw_menu cfg titles = some (draw_menu_spec cfg titles)
      ∧ (draw_menu_spec cfg titles).length
          = titles.length + cfg.top_padding + cfg.bottom_padding + 2
      ∧ (∀ iW, iW = cfg.left_padding
            + ((toString titles.length).length + cfg.serial_marker.length
                + titles.foldl (fun m t => max m t.length) 0)
            + cfg.right_padding →
          (draw_menu_spec cfg titles).head? = some (strRepeat cfg.edge_char (iW + 2))
          ∧ (strRepeat cfg.edge_char (iW + 2)).length = iW + 2
          ∧ (cfg.edge_char ++ strRepeat cfg.wall_char iW ++ cfg.edge_char).length
              = iW + 2) := by
  intro cfg titles hne he hw
  have hemp : titles.isEmpty = false := List.isEmpty_eq_false.mpr hne
  refine ⟨?_, ?_, ?_⟩
  · simp only [draw_menu, draw_menu_spec, hemp, Bool.false_eq_true, if_false]
    rw [he]
  · simp [draw_menu_spec, List.length_append, List.length_replicate, List.length_mapIdx]
    omega
  · intro iW hiW
    refine ⟨?_, ?_, ?_⟩
    · simp only [draw_menu_spec, hiW]
      simp
    · rw [strRepeat_length, he, Nat.mul_one]
    · simp only [String.length_append, strRepeat_length, he, hw]
      omega

/-! ## Iteration shape of the traversal loop -/

theorem enterLoop_iteration_shape (cfg : MenuConfig) (fuel : Nat) (ch : List OptionNode)
    (state : Option Nat) (stream : List String)
    (h1 : (state == some RETURN_CODE) = false) (h2 : (state == some QUIT_CODE) = false)
    (hne : ch ≠ []) :
    ∃ tr out, enterLoop cfg (fuel + 1) ch state stream
      = ((if cfg.draw_menu_again || state == some ENTER_CODE then [Ev.draw (titlesOf ch)]
          else []) ++ Ev.prompt :: tr, out) := by
  have hemp : ch.isEmpty = false := List.isEmpty_eq_false.mpr hne
  simp only [enterLoop, h1, h2, Bool.false_eq_true, if_false, hemp, Bool.and_false]
  cases hro : request_option ch stream with
  | outOfInput => exact ⟨[], LoopOut.outOfInput, by simp⟩
  | crash => exact ⟨[], LoopOut.crash, by simp⟩
  | got oc rest =>
    cases oc with
    | none =>
      exact ⟨(enterLoop cfg fuel ch none rest).fst, (enterLoop cfg fuel ch none rest).snd, rfl⟩
    | some child =>
      obtain ⟨ct, ck, cc⟩ := child
      simp only [OptionNode.kind, OptionNode.title, OptionNode.children]
      cases ck with
      | user =>
        exact ⟨Ev.exec ct :: (enterLoop cfg fuel ch none rest).fst,
          (enterLoop cfg fuel ch none rest).snd, rfl⟩
      | ret =>
        exact ⟨(enterLoop cfg fuel ch (some RETURN_CODE) rest).fst,
          (enterLoop cfg fuel ch (some RETURN_CODE) rest).snd, rfl⟩
      | quit =>
        exact ⟨(enterLoop cfg fuel ch (some QUIT_CODE) rest).fst,
          (enterLoop cfg fuel ch (some QUIT_CODE) rest).snd, rfl⟩
      | enter =>
        cases hsub : enterLoop cfg fuel cc (some ENTER_CODE) rest with
        | mk trc out =>
          cases out with
          | ok code rest2 =>
            exact ⟨trc ++ (enterLoop cfg fuel ch (some code) rest2).fst,
              (enterLoop cfg fuel ch (some code) rest2).snd, rfl⟩
          | crash => exact ⟨trc, LoopOut.crash, rfl⟩
          | outOfInput => exact ⟨trc, LoopOut.outOfInput, rfl⟩
          | timeout => exact ⟨trc, LoopOut.timeout, rfl⟩

theorem enterLoop_failed_choice (cfg : MenuConfig) (fuel : Nat) (ch : List OptionNode)
    (state : Option Nat) (line : String) (rest : List String)
    (h1 : (state == some RETURN_CODE) = false) (h2 : (state == some QUIT_CODE) = false)
    (hne : ch ≠ []) (hro : request_option ch (line :: rest) = ChoiceRes.got none rest) :
    enterLoop cfg (fuel + 1) ch state (line :: rest)
      = ((if cfg.draw_menu_again || state == some ENTER_CODE then [Ev.draw (titlesOf ch)]
          else []) ++ Ev.prompt :: (enterLoop cfg fuel ch none rest).fst,
         (enterLoop cfg fuel ch none rest).snd) := by
  have hemp : ch.isEmpty = false := List.isEmpty_eq_false.mpr hne
  simp only [enterLoop, h1, h2, Bool.false_eq_true, if_false, hemp, Bool.and_false, hro]

theorem enterLoop_quit_child (cfg : MenuConfig) (fuel : Nat) (ch : List OptionNode)
    (state : Option Nat) (line t : String) (rest : List String)
    (h1 : (state == some RETURN_CODE) = false) (h2 : (state == some QUIT_CODE) = false)
    (hne : ch ≠ [])
    (hro : request_option ch (line :: rest)
      = ChoiceRes.got (some (OptionNode.mk t ActKind.quit [])) rest) :
    enterLoop cfg (fuel + 1) ch state (line :: rest)
      = ((if cfg.draw_menu_again || state == some ENTER_CODE then [Ev.draw (titlesOf ch)]
          else []) ++ [Ev.prompt], LoopOut.ok QUIT_CODE rest) := by
  have hemp : ch.isEmpty = false := List.isEmpty_eq_false.mpr hne
  simp only [enterLoop, h1, h2, Bool.false_eq_true, if_false, hemp, Bool.and_false, hro,
    OptionNode.kind]
  rw [enterLoop_quit_exit]

theorem enterLoop_ret_child (cfg : MenuConfig) (fuel : Nat) (ch : List OptionNode)
    (state : Option Nat) (line t : String) (rest : List String)
    (h1 : (state == some RETURN_CODE) = false) (h2 : (state == some QUIT_CODE) = false)
    (hne : ch ≠ [])
    (hro : request_option ch (line :: rest)
      = ChoiceRes.got (some (OptionNode.mk t ActKind.ret [])) rest) :
    enterLoop cfg (fuel + 1) ch state (line :: rest)
      = ((if cfg.draw_menu_again || state == some ENTER_CODE then [Ev.draw (titlesOf ch)]
          else []) ++ [Ev.prompt], LoopOut.ok ENTER_CODE rest) := by
  have hemp : ch.isEmpty = false := List.isEmpty_eq_false.mpr hne
  simp only [enterLoop, h1, h2, Bool.false_eq_true, if_false, hemp, Bool.and_false, hro,
    OptionNode.kind]
  rw [enterLoop_return_exit]

theorem enterLoop_enter_child_ok (cfg : MenuConfig) (fuel : Nat) (ch : List OptionNode)
    (state : Option Nat) (line t : String) (rest : List String) (cc : List OptionNode)
    (trc : List Ev) (code : Nat) (rest2 : List String)
    (h1 : (state == some RETURN_CODE) = false) (h2 : (state == some QUIT_CODE) = false)
    (hne : ch ≠ [])
    (hro : request_option ch (line :: rest)
      = ChoiceRes.got (some (OptionNode.mk t ActKind.enter cc)) rest)
    (hsub : enterLoop cfg fuel cc (some ENTER_CODE) rest = (trc, LoopOut.ok code rest2)) :
    enterLoop cfg (fuel + 1) ch state (line :: rest)
      = ((if cfg.draw_menu_again || state == some ENTER_CODE then [Ev.draw (titlesOf ch)]
          else []) ++ Ev.prompt :: (trc ++ (enterLoop cfg fuel ch (some code) rest2).fst),
         (enterLoop cfg fuel ch (some code) rest2).snd) := by
  have hemp : ch.isEmpty = false := List.isEmpty_eq_false.mpr hne
  simp only [enterLoop, h1, h2, Bool.false_eq_true, if_false, hemp, Bool.and_false, hro,
    OptionNode.kind, OptionNode.children, hsub]

theorem chainQ_quit_propagates (cfg : MenuConfig) :
    ∀ d f, d ≤ f → (enterLoop cfg (f + 1) [chainQ d] (some ENTER_CODE)
      (List.replicate (d + 1) "1")).snd = LoopOut.ok QUIT_CODE [] := by
  have h1 : ((some ENTER_CODE : Option Nat) == some RETURN_CODE) = false := by decide
  have h2 : ((some ENTER_CODE : Option Nat) == some QUIT_CODE) = false := by decide
  intro d
  induction d with
  | zero =>
    intro f _
    rw [show List.replicate (0 + 1) "1" = "1" :: ([] : List String) by rfl]
    rw [enterLoop_quit_child cfg f [chainQ 0] (some ENTER_CODE) "1" "[Exit]" [] h1 h2
      (List.cons_ne_nil _ _) (request_option_single_one (chainQ 0) [])]
  | succ d ih =>
    intro f hf
    cases f with
    | zero => exact (Nat.not_succ_le_zero d hf).elim
    | succ f =>
      have ihf : (enterLoop cfg (f + 1) [chainQ d] (some ENTER_CODE)
          (List.replicate (d + 1) "1")).snd = LoopOut.ok QUIT_CODE [] :=
        ih f (Nat.succ_le_succ_iff.mp hf)
      have hp : enterLoop cfg (f + 1) [chainQ d] (some ENTER_CODE)
          (List.replicate (d + 1) "1")
          = ((enterLoop cfg (f + 1) [chainQ d] (some ENTER_CODE)
              (List.replicate (d + 1) "1")).fst, LoopOut.ok QUIT_CODE []) := by
        rw [← ihf]
      rw [show List.replicate (d + 1 + 1) "1" = "1" :: List.replicate (d + 1) "1"
        from List.replicate_succ "1" (d + 1)]
      rw [enterLoop_enter_child_ok cfg (f + 1) [chainQ (d + 1)] (some ENTER_CODE) "1"
        "Sub [d]" (List.replicate (d + 1) "1") [chainQ d]
        (enterLoop cfg (f + 1) [chainQ d] (some ENTER_CODE)
          (List.replicate (d + 1) "1")).fst QUIT_CODE [] h1 h2 (List.cons_ne_nil _ _)
        (request_option_single_one (chainQ (d + 1)) (List.replicate (d + 1) "1")) hp]
      rw [enterLoop_quit_exit]

theorem return_absorbed (cfg : MenuConfig) (fuel : Nat) (rest : List String) (t l : String) :
    enterLoop cfg (fuel + 2) [OptionNode.mk t ActKind.enter [OptionNode.mk l ActKind.ret []]]
        (some ENTER_CODE) ("1" :: "1" :: rest)
      = ([Ev.draw [t], Ev.prompt, Ev.draw [l], Ev.prompt]
          ++ (enterLoop cfg (fuel + 1)
              [OptionNode.mk t ActKind.enter [OptionNode.mk l ActKind.ret []]]
              (some ENTER_CODE) rest).fst,
         (enterLoop cfg (fuel + 1)
              [OptionNode.mk t ActKind.enter [OptionNode.mk l ActKind.ret []]]
              (some ENTER_CODE) rest).snd) := by
  have h1 : ((some ENTER_CODE : Option Nat) == some RETURN_CODE) = false := by decide
  have h2 : ((some ENTER_CODE : Option Nat) == some QUIT_CODE) = false := by decide
  have hE : ((some ENTER_CODE : Option Nat) == some ENTER_CODE) = true := by decide
  have hsub : enterLoop cfg (fuel + 1) [OptionNode.mk l ActKind.ret []] (some ENTER_CODE)
      ("1" :: rest) = ([Ev.draw [l], Ev.prompt], LoopOut.ok ENTER_CODE rest) := by
    rw [enterLoop_ret_child cfg fuel [OptionNode.mk l ActKind.ret []] (some ENTER_CODE)
      "1" l rest h1 h2 (List.cons_ne_nil _ _) (request_option_single_one _ rest)]
    simp [hE, titlesOf, OptionNode.title]
  rw [show fuel + 2 = (fuel + 1) + 1 from rfl]
  rw [enterLoop_enter_child_ok cfg (fuel + 1)
    [OptionNode.mk t ActKind.enter [OptionNode.mk l ActKind.ret []]] (some ENTER_CODE)
    "1" t ("1" :: rest) [OptionNode.mk l ActKind.ret []] [Ev.draw [l], Ev.prompt]
    ENTER_CODE rest h1 h2 (List.cons_ne_nil _ _)
    (request_option_single_one _ ("1" :: rest)) hsub]
  simp [hE, titlesOf, OptionNode.title]

/-- C1: on exiting the `while` loop of `_enter_next_level`, the function
returns QUIT when the terminal signal is QUIT and ENTER when it is RETURN
(conjuncts 1 and 2, for every configuration, fuel, children and stream);
consequently a QUIT signal produced at any depth `d` of a chain of nested
submenus propagates unchanged through every enclosing frame and terminates
the root call with QUIT (conjunct 3), while a RETURN signal is absorbed by
exactly its own enclosing frame, which converts it into ENTER for the parent:
the loop of the parent does not exit but resumes with the ENTER signal (conjunct
4, where the parent continues as a fresh `enterLoop` iteration with signal
ENTER after the single draw of the submenu). -/
theorem C1_signal_propagation :
    (∀ (cfg : MenuConfig) (fuel : Nat) (ch : List OptionNode) (stream : List String),
      enterLoop cfg fuel ch (some QUIT_CODE) stream = ([], LoopOut.ok QUIT_CODE stream))
    ∧ (∀ (cfg : MenuConfig) (fuel : Nat) (ch : List OptionNode) (stream : List String),
      enterLoop cfg fuel ch (some RETURN_CODE) stream = ([], LoopOut.ok ENTER_CODE stream))
    ∧ (∀ (cfg : MenuConfig) (d : Nat),
      (enter_next_level cfg (d + 1) [chainQ d] (List.replicate (d + 1) "1")).snd
        = LoopOut.ok QUIT_CODE [])
    ∧ ∀ (cfg : MenuConfig) (fuel : Nat) (rest : List String) (t l : String),
      enterLoop cfg (fuel + 2)
          [OptionNode.mk t ActKind.enter [OptionNode.mk l ActKind.ret []]]
          (some ENTER_CODE) ("1" :: "1" :: rest)
        = ([Ev.draw [t], Ev.prompt, Ev.draw [l], Ev.prompt]
            ++ (enterLoop cfg (fuel + 1)
                [OptionNode.mk t ActKind.enter [OptionNode.mk l ActKind.ret []]]
                (some ENTER_CODE) rest).fst,
           (enterLoop cfg (fuel + 1)
                [OptionNode.mk t ActKind.enter [OptionNode.mk l ActKind.ret []]]
                (some ENTER_CODE) rest).snd) :=
  ⟨enterLoop_quit_exit, enterLoop_return_exit,
    fun cfg d => chainQ_quit_propagates cfg d d (le_refl d),
    return_absorbed⟩

/-- C4: in every iteration of the `_enter_next_level` loop the menu is
redrawn exactly when `draw_menu_again` is configured or the signal equals the
ENTER code (conjunct 1: the emitted trace starts with a draw event under
precisely that condition); the signal is reset to `None` before the choice is
requested, so after a failed or aborted choice request the loop continues
with signal `None` (conjunct 2), and an iteration entered with signal `None`
redraws only when `draw_menu_again` is configured, merely re-prompting
otherwise (conjunct 3). -/
theorem C4_redraw_discipline :
    (∀ (cfg : MenuConfig) (fuel : Nat) (ch : List OptionNode) (state : Option Nat)
        (stream : List String),
      (state == some RETURN_CODE) = false → (state == some QUIT_CODE) = false → ch ≠ [] →
      ∃ tr out, enterLoop cfg (fuel + 1) ch state stream
        = ((if cfg.draw_menu_again || state == some ENTER_CODE then [Ev.draw (titlesOf ch)]
            else []) ++ Ev.prompt :: tr, out))
    ∧ (∀ (cfg : MenuConfig) (fuel : Nat) (ch : List OptionNode) (state : Option Nat)
        (line : String) (rest : List String),
      (state == some RETURN_CODE) = false → (state == some QUIT_CODE) = false → ch ≠ [] →
      request_option ch (line :: rest) = ChoiceRes.got none rest →
      enterLoop cfg (fuel + 1) ch state (line :: rest)
        = ((if cfg.draw_menu_again || state == some ENTER_CODE then [Ev.draw (titlesOf ch)]
            else []) ++ Ev.prompt :: (enterLoop cfg fuel ch none rest).fst,
           (enterLoop cfg fuel ch none rest).snd))
    ∧ ∀ (cfg : MenuConfig) (fuel : Nat) (ch : List OptionNode) (stream : List String),
        ch ≠ [] →
        ∃ tr out, enterLoop cfg (fuel + 1) ch none stream
          = ((if cfg.draw_menu_again then [Ev.draw (titlesOf ch)] else [])
              ++ Ev.prompt :: tr, out) := by
  refine ⟨fun cfg fuel ch state stream h1 h2 hne =>
      enterLoop_iteration_shape cfg fuel ch state stream h1 h2 hne,
    fun cfg fuel ch state line rest h1 h2 hne hro =>
      enterLoop_failed_choice cfg fuel ch state line rest h1 h2 hne hro,
    fun cfg fuel ch stream hne => ?_⟩
  obtain ⟨tr, out, h⟩ := enterLoop_iteration_shape cfg fuel ch none stream rfl rfl hne
  refine ⟨tr, out, ?_⟩
  rw [h]
  have hb : ((none : Option Nat) == some ENTER_CODE) = false := rfl
  simp [hb]

theorem C4_redraw_discipline_witness :
    enterLoop DEFAULT_MENU_CONFIG (0 + 1) [OptionNode.mk "X" ActKind.user []] none
        ("x" :: ["z"])
      = ((if DEFAULT_MENU_CONFIG.draw_menu_again
            || (none : Option Nat) == some ENTER_CODE
          then [Ev.draw (titlesOf [OptionNode.mk "X" ActKind.user []])] else [])
          ++ Ev.prompt :: (enterLoop DEFAULT_MENU_CONFIG 0
              [OptionNode.mk "X" ActKind.user []] none ["z"]).fst,
         (enterLoop DEFAULT_MENU_CONFIG 0
              [OptionNode.mk "X" ActKind.user []] none ["z"]).snd) :=
  C4_redraw_discipline.2.1 DEFAULT_MENU_CONFIG 0 [OptionNode.mk "X" ActKind.user []] none
    "x" ["z"] rfl rfl (List.cons_ne_nil _ _) rfl

theorem C9_renderer_amended_witness :
    draw_menu DEFAULT_MENU_CONFIG ["New File", "Open", "Exit"]
      = some (draw_menu_spec DEFAULT_MENU_CONFIG ["New File", "Open", "Exit"])
    ∧ (draw_menu_spec DEFAULT_MENU_CONFIG ["New File", "Open", "Exit"]).length
      = (["New File", "Open", "Exit"] : List String).length
          + DEFAULT_MENU_CONFIG.top_padding + DEFAULT_MENU_CONFIG.bottom_padding + 2 :=
  ⟨(C9_renderer_amended DEFAULT_MENU_CONFIG ["New File", "Open", "Exit"]
      (List.cons_ne_nil _ _) rfl rfl).1,
   (C9_renderer_amended DEFAULT_MENU_CONFIG ["New File", "Open", "Exit"]
      (List.cons_ne_nil _ _) rfl rfl).2.1⟩
